import Mathlib

/-!
Shallow embedding of the name-matcher repository's core
(`matcher/matcher.py` and `matcher/name_variants.py`).

External collaborators are modelled as parameters:
* the fuzzy string metrics of the `fuzzywuzzy` library become a function
  `scorer : String → String → FuzzyScores`;
* the LLM call `llm.invoke(prompt).strip()` becomes a value
  `llm_response : Except String String` (`Except.error e` models the call
  raising an exception with message `e`, `Except.ok r` models it returning
  the response text `r`); the prompt text itself is consumed by no claim;
* the `nameparser.HumanName` decomposition becomes a function
  `parse : String → String × String × String` returning the raw
  `(first, middle, last)` fields;
* `generate_nicknames` (itself an LLM call) becomes a function
  `String → List String` giving the nickname list for a first name.
Everything downstream of these parameters is translated line by line from
the Python source.
-/

/-! Structural models of the Python string operations used by the source.
Lean core's `String.trim`, `String.splitOn`, `String.toLower` … are
defined by well-founded recursion and are awkward to evaluate inside
proofs, so the embedding uses these character-list implementations with
the exact Python semantics instead. -/

/-- Python `str.strip()`: remove leading and trailing whitespace. -/
def pyStrip (s : String) : String :=
  String.mk (((s.data.dropWhile Char.isWhitespace).reverse.dropWhile Char.isWhitespace).reverse)

/-- Python `str.lower()` (ASCII letters, as all inputs here are ASCII). -/
def pyLower (s : String) : String :=
  String.mk (s.data.map Char.toLower)

/-- Worker for `pySplitChar`: split a character list at every occurrence
of `c`, keeping empty pieces, like Python `s.split(c)`. -/
def splitCharAux (c : Char) : List Char → List Char → List String
  | [], acc => [String.mk acc.reverse]
  | x :: xs, acc =>
    if x = c then String.mk acc.reverse :: splitCharAux c xs []
    else splitCharAux c xs (x :: acc)

/-- Python `s.split(c)` for a one-character separator `c`. -/
def pySplitChar (c : Char) (s : String) : List String :=
  splitCharAux c s.data []

/-- Worker for `pySplitWs`: split at whitespace runs. -/
def splitWsAux : List Char → List Char → List String
  | [], acc => [String.mk acc.reverse]
  | x :: xs, acc =>
    if x.isWhitespace then String.mk acc.reverse :: splitWsAux xs []
    else splitWsAux xs (x :: acc)

/-- Python `s.split()` with no argument: split on whitespace and drop
empty pieces. -/
def pySplitWs (s : String) : List String :=
  (splitWsAux s.data []).filter (fun t => t ≠ "")

/-- Python `s.startswith(pre)`. -/
def pyStartsWith (pre s : String) : Bool :=
  pre.data.isPrefixOf s.data

/-- Worker for `pyContains`: does `sub` occur as a contiguous sublist? -/
def isSubList (sub : List Char) : List Char → Bool
  | [] => sub.isEmpty
  | x :: xs => sub.isPrefixOf (x :: xs) || isSubList sub xs

/-- Python `sub in s`: substring containment. -/
def pyContains (s sub : String) : Bool :=
  isSubList sub.data s.data

/-- Python `sep.join(l)`. -/
def pyJoin (sep : String) : List String → String
  | [] => ""
  | [x] => x
  | x :: xs => x ++ sep ++ pyJoin sep xs

/-- The characters after the first colon of a list, when a colon exists. -/
def afterFirstColon : List Char → Option (List Char)
  | [] => none
  | x :: xs => if x = ':' then some xs else afterFirstColon xs

/-- The four metric scores of `calculate_multiple_fuzzy_scores`
(matcher.py lines 10-17).  Field name mapping to Python dict keys:
`ratioVal` = 'ratio', `pRatioVal` = 'partial_ratio',
`tSortRatioVal` = 'token_sort_ratio', `tSetRatioVal` = 'token_set_ratio'. -/
structure FuzzyScores where
  ratioVal : ℚ
  pRatioVal : ℚ
  tSortRatioVal : ℚ
  tSetRatioVal : ℚ
  deriving DecidableEq

/-- The weighted combination of matcher.py lines 31-36:
`scores['token_set_ratio'] * 0.4 + scores['token_sort_ratio'] * 0.3 +
scores['ratio'] * 0.2 + scores['partial_ratio'] * 0.1`. -/
def combined_score (scores : FuzzyScores) : ℚ :=
  scores.tSetRatioVal * 0.4 +
  scores.tSortRatioVal * 0.3 +
  scores.ratioVal * 0.2 +
  scores.pRatioVal * 0.1

/-- `get_best_fuzzy_match` (matcher.py lines 19-44).  The Python loop
starts from `best_score = 0`, `best_variant = None`, `best_match = None`,
`best_scores = {}` (modelled as `none`) and updates only on a strictly
greater combined score.  The Python set of variants is modelled as a list
fixing one iteration order.  `best_step` is the body of the inner loop
(matcher.py lines 27-42). -/
def best_step (scorer : String → String → FuzzyScores) (variant : String)
    (acc : ℚ × Option String × Option String × Option FuzzyScores)
    (article_name : String) : ℚ × Option String × Option String × Option FuzzyScores :=
  let scores := scorer variant article_name
  let combined := combined_score scores
  if acc.1 < combined then (combined, some variant, some article_name, some scores)
  else acc

def get_best_fuzzy_match (scorer : String → String → FuzzyScores)
    (name_variants : List String) (article_names : List String) :
    ℚ × Option String × Option String × Option FuzzyScores :=
  name_variants.foldl (fun acc variant =>
    article_names.foldl (best_step scorer variant) acc)
    (0, none, none, none)

/-- The decision dictionary returned by `match_name_against_article` /
`llm_name_match_fallback`.  The Python key "match" is a Lean keyword, so
the field is named `matched`.  Keys that appear only on some paths
(`detailed_scores`, `llm_raw_response`, `fuzzy_score`, `best_fuzzy_match`)
default to `none`. -/
structure MatchDecision where
  matched : Bool
  method : String
  matched_name : Option String
  matched_variant : Option String
  score : Option ℚ
  explanation : String
  confidence : String
  detailed_scores : Option FuzzyScores := none
  llm_raw_response : Option String := none
  fuzzy_score : Option ℚ := none
  best_fuzzy_match : Option String := none
  deriving DecidableEq

/-- Python `"yes" in s`. -/
def contains_yes (s : String) : Bool :=
  pyContains s "yes"

/-- Python `s.split(':', 1)[-1]`: everything after the first colon, or the
whole string when there is no colon. -/
def split_colon_rest (s : String) : String :=
  match afterFirstColon s.data with
  | some rest => String.mk rest
  | none => s

/-- `llm_name_match_fallback` (matcher.py lines 103-169).  The list
truncations `list(name_variants)[:10]` and `article_names[:20]` only feed
the prompt text, which no claim consumes; the response parsing and both
return dictionaries are translated exactly.  `Except.error e` is the
`except Exception as e` path. -/
def llm_name_match_fallback (name_variants : List String) (article_names : List String)
    (fuzzy_score : ℚ) (best_variant : Option String) (best_match : Option String)
    (llm_response : Except String String) : MatchDecision :=
  match llm_response with
  | Except.ok raw =>
    let response := pyStrip raw
    let lines := pySplitChar '\n' response
    let match_line := (lines.find? (fun line => pyStartsWith "match:" (pyLower line))).getD ""
    let confidence_line :=
      (lines.find? (fun line => pyStartsWith "confidence:" (pyLower line))).getD ""
    let explanation_line :=
      (lines.find? (fun line => pyStartsWith "explanation:" (pyLower line))).getD ""
    let matched := contains_yes (pyLower match_line)
    let confidence :=
      if confidence_line ≠ "" then pyLower (pyStrip (split_colon_rest confidence_line))
      else "medium"
    let explanation :=
      if explanation_line ≠ "" then pyStrip (split_colon_rest explanation_line) else response
    { matched := matched
      method := "llm_disambiguation"
      matched_name := best_match
      matched_variant := best_variant
      score := none
      explanation := explanation
      confidence := confidence
      llm_raw_response := some response }
  | Except.error e =>
    { matched := false
      method := "llm_error"
      matched_name := none
      matched_variant := none
      score := none
      explanation := "LLM analysis failed: " ++ e ++ ". Defaulting to no match for safety."
      confidence := "low" }

/-- `match_name_against_article` (matcher.py lines 46-101), default
thresholds 85 and 20.  The Python f-string score formatting `:.1f` is not
reproduced in the explanation strings; their wording is otherwise kept. -/
def match_name_against_article (scorer : String → String → FuzzyScores)
    (llm_response : Except String String)
    (name_variants : List String) (article_names : List String)
    (high_threshold : ℚ := 85) (low_threshold : ℚ := 20) : MatchDecision :=
  if name_variants = [] ∨ article_names = [] then
    { matched := false
      method := "no_data"
      matched_name := none
      matched_variant := none
      score := some 0
      explanation := "No name variants or article names to compare"
      confidence := "high" }
  else
    let best := get_best_fuzzy_match scorer name_variants article_names
    let best_score := best.1
    let best_variant := best.2.1
    let best_match := best.2.2.1
    let detailed_scores := best.2.2.2
    if high_threshold ≤ best_score then
      { matched := true
        method := "fuzzy_high_confidence"
        matched_name := best_match
        matched_variant := best_variant
        score := some best_score
        detailed_scores := detailed_scores
        explanation := "High confidence match between variant and article name"
        confidence := "high" }
    else if best_score < low_threshold then
      { matched := false
        method := "fuzzy_high_confidence"
        matched_name := best_match
        matched_variant := best_variant
        score := some best_score
        detailed_scores := detailed_scores
        explanation := "High confidence no match - names are too dissimilar"
        confidence := "high" }
    else
      let llm_result :=
        llm_name_match_fallback name_variants article_names best_score best_variant best_match
          llm_response
      { llm_result with fuzzy_score := some best_score, best_fuzzy_match := best_match }

/-- Python `re.sub(r"\s+", " ", s)`: every maximal run of whitespace
becomes a single space (name_variants.py line 99). -/
def collapse_ws (s : String) : String :=
  (s.data.foldl
    (fun (acc : String × Bool) c =>
      if c.isWhitespace then (if acc.2 then acc.1 else acc.1.push ' ', true)
      else (acc.1.push c, false))
    ("", false)).1

/-- Python `re.sub(r"['\-\.]", "", s)`: drop every apostrophe, hyphen and
period (name_variants.py line 102).  `Char.ofNat 39` is the apostrophe. -/
def strip_punct (s : String) : String :=
  String.mk (s.data.filter (fun c => ¬(c = Char.ofNat 39 ∨ c = '-' ∨ c = '.')))

/-- The first/middle/last decomposition of `generate_name_variants`
(name_variants.py lines 45-59): lower-cased and stripped `HumanName`
fields, with the whitespace-tokenization fallback when the parser found
neither a first nor a last name.  Note that the fallback assigns the raw
tokens `tokens[0]` / `tokens[-1]` without lower-casing, exactly as the
source does. -/
def decompose (parse : String → String × String × String) (full_name : String) :
    String × String × String :=
  let parsed := parse full_name
  let first := pyStrip (pyLower parsed.1)
  let middle := pyStrip (pyLower parsed.2.1)
  let last := pyStrip (pyLower parsed.2.2)
  if first = "" ∧ last = "" then
    let tokens := pySplitWs full_name
    if tokens.length ≥ 2 then
      (tokens.headD "",
       if tokens.length > 2 then pyJoin " " ((tokens.drop 1).dropLast) else middle,
       tokens.getLastD "")
    else (first, middle, last)
  else (first, middle, last)

/-- The list of raw variants built by name_variants.py lines 64-92, in
source order: basic combinations, middle-name forms, initials, nickname
forms, and hyphenated-last-name splits.  Python's `variants` is a set, but
the final result only depends on which strings are produced, so a list is
a faithful model.  `middle.take 1` is Python `middle[0]`, `first.take 1`
is `first[0]`. -/
def variants_list (first middle last : String) (nicknames : List String) : List String :=
  [first ++ " " ++ last] ++
  (if middle ≠ "" then
    [first ++ " " ++ middle ++ " " ++ last,
     first ++ " " ++ String.mk (middle.data.take 1) ++ ". " ++ last,
     middle ++ " " ++ last] ++
    (if middle.length > 1 then [String.mk (middle.data.take 1) ++ ". " ++ last] else [])
  else []) ++
  (if first.length > 0 then
    [String.mk (first.data.take 1) ++ ". " ++ last,
     String.mk (first.data.take 1) ++ " " ++ last]
  else []) ++
  (nicknames.flatMap (fun nick =>
    if nick ≠ "" then
      [nick ++ " " ++ last] ++
      (if middle ≠ "" then [nick ++ " " ++ String.mk (middle.data.take 1) ++ ". " ++ last]
       else [])
    else [])) ++
  (if last.data.contains '-' then
    (pySplitChar '-' last).flatMap (fun part => if part ≠ "" then [first ++ " " ++ part] else [])
  else [])

/-- The cleaning pass of name_variants.py lines 95-102: for every variant
that is non-empty and non-blank, insert its whitespace-collapsed form and
the punctuation-stripped duplicate of that form.  `clean_step` is the
loop body (lines 96-102). -/
def clean_step (acc : Finset String) (variant : String) : Finset String :=
  if variant ≠ "" ∧ pyStrip variant ≠ "" then
    insert (strip_punct (collapse_ws (pyStrip variant)))
      (insert (collapse_ws (pyStrip variant)) acc)
  else acc

def clean_fold (variants : List String) : Finset String :=
  variants.foldl clean_step (∅ : Finset String)

/-- `generate_name_variants` (name_variants.py lines 37-104), with the
`HumanName` parser and the `generate_nicknames` collaborator as
parameters. -/
def generate_name_variants (parse : String → String × String × String)
    (nicknames_for : String → List String) (full_name : String) : Finset String :=
  if full_name = "" ∨ pyStrip full_name = "" then ∅
  else if (decompose parse full_name).1 = "" ∨ (decompose parse full_name).2.2 = "" then ∅
  else
    clean_fold (variants_list (decompose parse full_name).1 (decompose parse full_name).2.1
      (decompose parse full_name).2.2 (nicknames_for (decompose parse full_name).1))

/-! Concrete collaborator behaviours used to evaluate the code at
specific inputs.  `parse0` models `HumanName` finding neither a first nor
a last name (as happens for title-only strings such as "Mr. Dr.");
`parse1` models a parse whose middle token is a bare period (the
whitespace-tokenization fallback produces the same triple for "a . b");
`nicks0` is a nickname lookup returning nothing; the `scorerN` functions
are fuzzy metric stubs where every metric returns N, so every fused score
is N. -/

def parse0 : String → String × String × String := fun _ => ("", "", "")

def parse1 : String → String × String × String := fun _ => ("a", ".", "b")

def parse2 : String → String × String × String := fun _ => ("John", "", "Smith")

def nicks0 : String → List String := fun _ => []

def scorer0 : String → String → FuzzyScores := fun _ _ => ⟨0, 0, 0, 0⟩

def scorer50 : String → String → FuzzyScores := fun _ _ => ⟨50, 50, 50, 50⟩

def scorer100 : String → String → FuzzyScores := fun _ _ => ⟨100, 100, 100, 100⟩

/-! Helper lemmas about the two folds. -/

lemma clean_step_subset (acc : Finset String) (v : String) : acc ⊆ clean_step acc v := by
  unfold clean_step
  split
  · intro x hx
    exact Finset.mem_insert_of_mem (Finset.mem_insert_of_mem hx)
  · exact Finset.Subset.refl acc

lemma subset_foldl_clean_step (l : List String) (acc : Finset String) :
    acc ⊆ l.foldl clean_step acc := by
  induction l generalizing acc with
  | nil => exact Finset.Subset.refl acc
  | cons a t ih => exact (clean_step_subset acc a).trans (ih (clean_step acc a))

lemma mem_foldl_clean_step_of_mem (l : List String) (acc : Finset String) (v : String)
    (hv : v ∈ l) (h1 : v ≠ "") (h2 : pyStrip v ≠ "") :
    collapse_ws (pyStrip v) ∈ l.foldl clean_step acc ∧
      strip_punct (collapse_ws (pyStrip v)) ∈ l.foldl clean_step acc := by
  induction l generalizing acc with
  | nil => cases hv
  | cons a t ih =>
    rcases List.mem_cons.mp hv with h | h
    · subst h
      have hstep : collapse_ws (pyStrip v) ∈ clean_step acc v ∧
          strip_punct (collapse_ws (pyStrip v)) ∈ clean_step acc v := by
        unfold clean_step
        rw [if_pos ⟨h1, h2⟩]
        exact ⟨Finset.mem_insert_of_mem (Finset.mem_insert_self _ _),
          Finset.mem_insert_self _ _⟩
      exact ⟨subset_foldl_clean_step t _ hstep.1, subset_foldl_clean_step t _ hstep.2⟩
    · exact ih (clean_step acc a) h

lemma mem_foldl_clean_step_iff (l : List String) (acc : Finset String) (x : String) :
    x ∈ l.foldl clean_step acc ↔
      x ∈ acc ∨ ∃ v ∈ l, v ≠ "" ∧ pyStrip v ≠ "" ∧
        (x = collapse_ws (pyStrip v) ∨ x = strip_punct (collapse_ws (pyStrip v))) := by
  induction l generalizing acc with
  | nil => simp
  | cons a t ih =>
    rw [List.foldl_cons, ih]
    constructor
    · rintro (hmem | ⟨v, hv, h1, h2, hx⟩)
      · unfold clean_step at hmem
        by_cases h : a ≠ "" ∧ pyStrip a ≠ ""
        · rw [if_pos h] at hmem
          rcases Finset.mem_insert.mp hmem with hx | hmem2
          · exact Or.inr ⟨a, List.mem_cons_self a t, h.1, h.2, Or.inr hx⟩
          · rcases Finset.mem_insert.mp hmem2 with hx | hacc2
            · exact Or.inr ⟨a, List.mem_cons_self a t, h.1, h.2, Or.inl hx⟩
            · exact Or.inl hacc2
        · rw [if_neg h] at hmem
          exact Or.inl hmem
      · exact Or.inr ⟨v, List.mem_cons_of_mem a hv, h1, h2, hx⟩
    · rintro (hmem | ⟨v, hv, h1, h2, hx⟩)
      · exact Or.inl (clean_step_subset acc a hmem)
      · rcases List.mem_cons.mp hv with rfl | hvt
        · apply Or.inl
          unfold clean_step
          rw [if_pos ⟨h1, h2⟩]
          rcases hx with hx | hx
          · rw [hx]
            exact Finset.mem_insert_of_mem (Finset.mem_insert_self _ _)
          · rw [hx]
            exact Finset.mem_insert_self _ _
        · exact Or.inr ⟨v, hvt, h1, h2, hx⟩

lemma foldl_best_step_zero (scorer : String → String → FuzzyScores) (v : String)
    (an : List String) (acc : ℚ × Option String × Option String × Option FuzzyScores)
    (h : ∀ a ∈ an, combined_score (scorer v a) = 0) (hacc : acc.1 = 0) :
    an.foldl (best_step scorer v) acc = acc := by
  induction an generalizing acc with
  | nil => rfl
  | cons a t ih =>
    have hcond : ¬(acc.1 < combined_score (scorer v a)) := by
      rw [h a (List.mem_cons_self a t), hacc]
      exact lt_irrefl 0
    have hstep : best_step scorer v acc a = acc := by
      unfold best_step
      rw [if_neg hcond]
    rw [List.foldl_cons, hstep]
    exact ih acc (fun b hb => h b (List.mem_cons_of_mem a hb)) hacc

lemma get_best_fuzzy_match_zero (scorer : String → String → FuzzyScores)
    (nv an : List String)
    (h : ∀ v ∈ nv, ∀ a ∈ an, combined_score (scorer v a) = 0) :
    get_best_fuzzy_match scorer nv an = (0, none, none, none) := by
  unfold get_best_fuzzy_match
  have main : ∀ (l : List String) (acc : ℚ × Option String × Option String × Option FuzzyScores),
      (∀ v ∈ l, ∀ a ∈ an, combined_score (scorer v a) = 0) → acc.1 = 0 →
      l.foldl (fun acc2 variant => an.foldl (best_step scorer variant) acc2) acc = acc := by
    intro l
    induction l with
    | nil => intro acc _ _; rfl
    | cons v t ih =>
      intro acc hl hacc
      rw [List.foldl_cons, foldl_best_step_zero scorer v an acc (hl v (List.mem_cons_self v t)) hacc]
      exact ih acc (fun w hw => hl w (List.mem_cons_of_mem v hw)) hacc
  exact main nv (0, none, none, none) h rfl

/-- Characterization of the non-empty-input branches of
`match_name_against_article` as a nested if-expression on the best fused
score. -/
lemma match_branches (scorer : String → String → FuzzyScores)
    (llm_response : Except String String) (nv an : List String) (hi lo : ℚ)
    (hne : ¬(nv = [] ∨ an = [])) :
    match_name_against_article scorer llm_response nv an hi lo =
      (if hi ≤ (get_best_fuzzy_match scorer nv an).1 then
        { matched := true
          method := "fuzzy_high_confidence"
          matched_name := (get_best_fuzzy_match scorer nv an).2.2.1
          matched_variant := (get_best_fuzzy_match scorer nv an).2.1
          score := some (get_best_fuzzy_match scorer nv an).1
          detailed_scores := (get_best_fuzzy_match scorer nv an).2.2.2
          explanation := "High confidence match between variant and article name"
          confidence := "high" }
      else if (get_best_fuzzy_match scorer nv an).1 < lo then
        { matched := false
          method := "fuzzy_high_confidence"
          matched_name := (get_best_fuzzy_match scorer nv an).2.2.1
          matched_variant := (get_best_fuzzy_match scorer nv an).2.1
          score := some (get_best_fuzzy_match scorer nv an).1
          detailed_scores := (get_best_fuzzy_match scorer nv an).2.2.2
          explanation := "High confidence no match - names are too dissimilar"
          confidence := "high" }
      else
        { llm_name_match_fallback nv an (get_best_fuzzy_match scorer nv an).1
            (get_best_fuzzy_match scorer nv an).2.1 (get_best_fuzzy_match scorer nv an).2.2.1
            llm_response with
          fuzzy_score := some (get_best_fuzzy_match scorer nv an).1
          best_fuzzy_match := (get_best_fuzzy_match scorer nv an).2.2.1 }) := by
  unfold match_name_against_article
  rw [if_neg hne]

/-- Claim C3: with an empty variant set or an empty article-name list,
`match_name_against_article` returns matched=false, method="no_data",
confidence="high" and a non-empty human-readable explanation, and the
result does not depend on the scorer or on the disambiguation
collaborator (no scoring or disambiguation is performed). -/
theorem no_data_decision (scorer : String → String → FuzzyScores)
    (llm_response : Except String String) (nv an : List String) (hi lo : ℚ)
    (h : nv = [] ∨ an = []) :
    (match_name_against_article scorer llm_response nv an hi lo).matched = false ∧
    (match_name_against_article scorer llm_response nv an hi lo).method = "no_data" ∧
    (match_name_against_article scorer llm_response nv an hi lo).confidence = "high" ∧
    (match_name_against_article scorer llm_response nv an hi lo).explanation =
      "No name variants or article names to compare" ∧
    (match_name_against_article scorer llm_response nv an hi lo).explanation ≠ "" ∧
    (∀ (scorer2 : String → String → FuzzyScores) (llm2 : Except String String),
      match_name_against_article scorer2 llm2 nv an hi lo =
        match_name_against_article scorer llm_response nv an hi lo) := by
  have key : ∀ (s2 : String → String → FuzzyScores) (l2 : Except String String),
      match_name_against_article s2 l2 nv an hi lo =
        { matched := false
          method := "no_data"
          matched_name := none
          matched_variant := none
          score := some 0
          explanation := "No name variants or article names to compare"
          confidence := "high" } := by
    intro s2 l2
    unfold match_name_against_article
    rw [if_pos h]
  rw [key scorer llm_response]
  refine ⟨rfl, rfl, rfl, rfl, by simp, ?_⟩
  intro s2 l2
  rw [key s2 l2]

/-- Witness for `no_data_decision` at the concrete input of an empty
variant set. -/
theorem no_data_decision_witness :
    (match_name_against_article scorer50 (Except.ok "") [] ["x"] 85 20).matched = false ∧
    (match_name_against_article scorer50 (Except.ok "") [] ["x"] 85 20).method = "no_data" ∧
    (match_name_against_article scorer50 (Except.ok "") [] ["x"] 85 20).confidence = "high" := by
  have h := no_data_decision scorer50 (Except.ok "") [] ["x"] 85 20 (Or.inl rfl)
  exact ⟨h.1, h.2.1, h.2.2.1⟩

/-- Claim C10: if every (variant, article-name) pair has fused score
exactly 0, the strictly-greater best-score update never replaces the
initial empty best pair, and with the default thresholds (85, 20) the
decision is the confident no-match with score 0 and both matched fields
null. -/
theorem zero_scores_confident_no_match (scorer : String → String → FuzzyScores)
    (llm_response : Except String String) (nv an : List String)
    (hnv : nv ≠ []) (han : an ≠ [])
    (hz : ∀ v ∈ nv, ∀ a ∈ an, combined_score (scorer v a) = 0) :
    (match_name_against_article scorer llm_response nv an 85 20).matched = false ∧
    (match_name_against_article scorer llm_response nv an 85 20).method =
      "fuzzy_high_confidence" ∧
    (match_name_against_article scorer llm_response nv an 85 20).confidence = "high" ∧
    (match_name_against_article scorer llm_response nv an 85 20).score = some 0 ∧
    (match_name_against_article scorer llm_response nv an 85 20).matched_name = none ∧
    (match_name_against_article scorer llm_response nv an 85 20).matched_variant = none := by
  have hne : ¬(nv = [] ∨ an = []) := by simp [hnv, han]
  have hbest := get_best_fuzzy_match_zero scorer nv an hz
  have key := match_branches scorer llm_response nv an 85 20 hne
  rw [hbest] at key
  norm_num at key
  rw [key]
  exact ⟨rfl, rfl, rfl, rfl, rfl, rfl⟩

/-- Witness for `zero_scores_confident_no_match` with an all-zero scorer
on one variant and one article name. -/
theorem zero_scores_confident_no_match_witness :
    (match_name_against_article scorer0 (Except.ok "") ["x"] ["y"] 85 20).matched = false ∧
    (match_name_against_article scorer0 (Except.ok "") ["x"] ["y"] 85 20).method =
      "fuzzy_high_confidence" ∧
    (match_name_against_article scorer0 (Except.ok "") ["x"] ["y"] 85 20).matched_name = none := by
  have h := zero_scores_confident_no_match scorer0 (Except.ok "") ["x"] ["y"]
    (by simp) (by simp)
    (by
      intro v hv a ha
      show combined_score ⟨0, 0, 0, 0⟩ = 0
      norm_num [combined_score])
  exact ⟨h.1, h.2.1, h.2.2.2.2.1⟩

/-- On one variant and one article name the best-match fold reduces to a
single strict comparison against the initial score 0. -/
lemma get_best_single (scorer : String → String → FuzzyScores) (v a : String) :
    get_best_fuzzy_match scorer [v] [a] =
      (if (0 : ℚ) < combined_score (scorer v a) then
        (combined_score (scorer v a), some v, some a, some (scorer v a))
      else (0, none, none, none)) := by
  unfold get_best_fuzzy_match best_step
  simp

lemma get_best_scorer50 (v a : String) :
    get_best_fuzzy_match scorer50 [v] [a] = (50, some v, some a, some ⟨50, 50, 50, 50⟩) := by
  rw [get_best_single]
  norm_num [combined_score, scorer50]

lemma get_best_scorer100 (v a : String) :
    get_best_fuzzy_match scorer100 [v] [a] = (100, some v, some a, some ⟨100, 100, 100, 100⟩) := by
  rw [get_best_single]
  norm_num [combined_score, scorer100]

/-- Claim C1: with non-empty inputs and thresholds low < high, the
decision is the confident fuzzy match exactly when the best fused score
is at least the high threshold (so a score equal to high_threshold
matches), the confident fuzzy no-match occurs only when the best fused
score is strictly below the low threshold, and a score equal to
low_threshold goes to the disambiguation band rather than the confident
no-match. -/
theorem threshold_decision_boundaries (scorer : String → String → FuzzyScores)
    (llm_response : Except String String) (nv an : List String)
    (hnv : nv ≠ []) (han : an ≠ []) (hi lo : ℚ) (hlohi : lo < hi) :
    (((match_name_against_article scorer llm_response nv an hi lo).matched = true ∧
        (match_name_against_article scorer llm_response nv an hi lo).method =
          "fuzzy_high_confidence") ↔
      hi ≤ (get_best_fuzzy_match scorer nv an).1) ∧
    ((match_name_against_article scorer llm_response nv an hi lo).matched = false ∧
        (match_name_against_article scorer llm_response nv an hi lo).method =
          "fuzzy_high_confidence" →
      (get_best_fuzzy_match scorer nv an).1 < lo) ∧
    ((get_best_fuzzy_match scorer nv an).1 = lo →
      (match_name_against_article scorer llm_response nv an hi lo).method =
          "llm_disambiguation" ∨
        (match_name_against_article scorer llm_response nv an hi lo).method = "llm_error") := by
  have hne : ¬(nv = [] ∨ an = []) := by simp [hnv, han]
  have key := match_branches scorer llm_response nv an hi lo hne
  by_cases h1 : hi ≤ (get_best_fuzzy_match scorer nv an).1
  · rw [key, if_pos h1]
    refine ⟨by simp [h1], by simp, ?_⟩
    intro hlo2
    exfalso
    rw [hlo2] at h1
    exact absurd hlohi (not_lt.mpr h1)
  · rw [key, if_neg h1]
    by_cases h2 : (get_best_fuzzy_match scorer nv an).1 < lo
    · rw [if_pos h2]
      refine ⟨by simp [h1], fun _ => h2, ?_⟩
      intro hlo2
      exfalso
      rw [hlo2] at h2
      exact lt_irrefl lo h2
    · rw [if_neg h2]
      cases llm_response with
      | ok r =>
        exact ⟨by simp [llm_name_match_fallback, h1],
          by simp [llm_name_match_fallback], fun _ => Or.inl rfl⟩
      | error e =>
        exact ⟨by simp [llm_name_match_fallback, h1],
          by simp [llm_name_match_fallback], fun _ => Or.inr rfl⟩

/-- Witness for `threshold_decision_boundaries`: a perfect score against
thresholds (85, 20) is a confident fuzzy match. -/
theorem threshold_decision_boundaries_witness :
    (match_name_against_article scorer100 (Except.ok "") ["john smith"] ["john smith"]
      85 20).matched = true ∧
    (match_name_against_article scorer100 (Except.ok "") ["john smith"] ["john smith"]
      85 20).method = "fuzzy_high_confidence" := by
  have h := threshold_decision_boundaries scorer100 (Except.ok "") ["john smith"] ["john smith"]
    (by simp) (by simp) 85 20 (by norm_num)
  refine h.1.mpr ?_
  rw [get_best_scorer100]
  norm_num

/-- Claim C9: for fixed inputs, low threshold and deterministic
collaborator, if the decision at high threshold h2 is the confident fuzzy
match then it is also the confident fuzzy match at every h1 ≤ h2 (with
lo ≤ h1): raising the high threshold never creates a fuzzy match. -/
theorem high_threshold_monotone (scorer : String → String → FuzzyScores)
    (llm_response : Except String String) (nv an : List String) (lo h1 h2 : ℚ)
    (hlo : lo ≤ h1) (h12 : h1 ≤ h2)
    (hmatch : (match_name_against_article scorer llm_response nv an h2 lo).matched = true ∧
      (match_name_against_article scorer llm_response nv an h2 lo).method =
        "fuzzy_high_confidence") :
    (match_name_against_article scorer llm_response nv an h1 lo).matched = true ∧
    (match_name_against_article scorer llm_response nv an h1 lo).method =
      "fuzzy_high_confidence" := by
  by_cases hne : nv = [] ∨ an = []
  · exfalso
    have key : match_name_against_article scorer llm_response nv an h2 lo =
        { matched := false
          method := "no_data"
          matched_name := none
          matched_variant := none
          score := some 0
          explanation := "No name variants or article names to compare"
          confidence := "high" } := by
      unfold match_name_against_article
      rw [if_pos hne]
    rw [key] at hmatch
    simp at hmatch
  · have key2 := match_branches scorer llm_response nv an h2 lo hne
    have key1 := match_branches scorer llm_response nv an h1 lo hne
    by_cases hs2 : h2 ≤ (get_best_fuzzy_match scorer nv an).1
    · rw [key1, if_pos (le_trans h12 hs2)]
      exact ⟨rfl, rfl⟩
    · exfalso
      rw [key2, if_neg hs2] at hmatch
      by_cases hb : (get_best_fuzzy_match scorer nv an).1 < lo
      · rw [if_pos hb] at hmatch
        simp at hmatch
      · rw [if_neg hb] at hmatch
        cases llm_response with
        | ok r => simp [llm_name_match_fallback] at hmatch
        | error e => simp [llm_name_match_fallback] at hmatch

/-- Witness for `high_threshold_monotone`: a fuzzy match at high
threshold 85 is still a fuzzy match at the lower high threshold 50. -/
theorem high_threshold_monotone_witness :
    (match_name_against_article scorer100 (Except.ok "") ["a"] ["b"] 50 20).matched = true ∧
    (match_name_against_article scorer100 (Except.ok "") ["a"] ["b"] 50 20).method =
      "fuzzy_high_confidence" := by
  apply high_threshold_monotone scorer100 (Except.ok "") ["a"] ["b"] 20 50 85
    (by norm_num) (by norm_num)
  have hne : ¬((["a"] : List String) = [] ∨ (["b"] : List String) = []) := by simp
  rw [match_branches scorer100 (Except.ok "") ["a"] ["b"] 85 20 hne, get_best_scorer100,
    if_pos (by norm_num)]
  exact ⟨rfl, rfl⟩

/-- The `matched` field computed by the successful-response branch of the
fallback: `"yes" in match_line.lower()` for the first line starting with
`match:` (case-insensitively), defaulting to the empty line. -/
lemma fallback_ok_matched (nv an : List String) (fuzzy : ℚ) (bv bm : Option String)
    (r : String) :
    (llm_name_match_fallback nv an fuzzy bv bm (Except.ok r)).matched =
      contains_yes
        (pyLower (((pySplitChar '\n' (pyStrip r)).find? (fun line =>
          pyStartsWith "match:" (pyLower line))).getD "")) := rfl

/-- The `confidence` field computed by the successful-response branch of
the fallback: the text after the colon of the first `confidence:` line,
trimmed and lower-cased, defaulting to "medium" when no such line
exists. -/
lemma fallback_ok_confidence (nv an : List String) (fuzzy : ℚ) (bv bm : Option String)
    (r : String) :
    (llm_name_match_fallback nv an fuzzy bv bm (Except.ok r)).confidence =
      (if ((pySplitChar '\n' (pyStrip r)).find? (fun line =>
          pyStartsWith "confidence:" (pyLower line))).getD "" ≠ "" then
        pyLower (pyStrip (split_colon_rest
          (((pySplitChar '\n' (pyStrip r)).find? (fun line =>
            pyStartsWith "confidence:" (pyLower line))).getD "")))
      else "medium") := rfl

/-- Claim C2 counterexample: in the uncertain band, a collaborator
response that cannot be parsed into the expected shape does NOT produce
the conservative matched=false/confidence="low"/method="llm_error"
decision the claim requires; the code instead returns
method="llm_disambiguation" with confidence "medium". -/
theorem llm_unparsable_counterexample :
    (match_name_against_article scorer50 (Except.ok "garbage") ["a"] ["b"] 85 20).method =
      "llm_disambiguation" ∧
    (match_name_against_article scorer50 (Except.ok "garbage") ["a"] ["b"] 85 20).method ≠
      "llm_error" ∧
    (match_name_against_article scorer50 (Except.ok "garbage") ["a"] ["b"] 85 20).confidence =
      "medium" ∧
    (match_name_against_article scorer50 (Except.ok "garbage") ["a"] ["b"] 85 20).confidence ≠
      "low" := by
  have hne : ¬((["a"] : List String) = [] ∨ (["b"] : List String) = []) := by simp
  rw [match_branches scorer50 (Except.ok "garbage") ["a"] ["b"] 85 20 hne, get_best_scorer50,
    if_neg (by norm_num), if_neg (by norm_num)]
  exact ⟨rfl, by decide, rfl, by decide⟩

/-- Claim C2 (amended): in the uncertain band, an unreachable collaborator
(the call raises) yields matched=false, confidence="low",
method="llm_error" without propagating the failure; a collaborator that
returns text lacking the expected MATCH/CONFIDENCE lines is instead
handled on the llm_disambiguation path with matched=false and confidence
defaulting to "medium". -/
theorem llm_failure_conservative (scorer : String → String → FuzzyScores)
    (nv an : List String) (hi lo : ℚ) (hnv : nv ≠ []) (han : an ≠ [])
    (hblo : lo ≤ (get_best_fuzzy_match scorer nv an).1)
    (hbhi : ¬(hi ≤ (get_best_fuzzy_match scorer nv an).1)) :
    (∀ e : String,
      (match_name_against_article scorer (Except.error e) nv an hi lo).matched = false ∧
      (match_name_against_article scorer (Except.error e) nv an hi lo).method = "llm_error" ∧
      (match_name_against_article scorer (Except.error e) nv an hi lo).confidence = "low") ∧
    (∀ r : String,
      (pySplitChar '\n' (pyStrip r)).find? (fun line =>
        pyStartsWith "match:" (pyLower line)) = none →
      (pySplitChar '\n' (pyStrip r)).find? (fun line =>
        pyStartsWith "confidence:" (pyLower line)) = none →
      (match_name_against_article scorer (Except.ok r) nv an hi lo).matched = false ∧
      (match_name_against_article scorer (Except.ok r) nv an hi lo).method =
        "llm_disambiguation" ∧
      (match_name_against_article scorer (Except.ok r) nv an hi lo).confidence = "medium") := by
  have hne : ¬(nv = [] ∨ an = []) := by simp [hnv, han]
  have hb2 : ¬((get_best_fuzzy_match scorer nv an).1 < lo) := not_lt.mpr hblo
  constructor
  · intro e
    rw [match_branches scorer (Except.error e) nv an hi lo hne, if_neg hbhi, if_neg hb2]
    exact ⟨rfl, rfl, rfl⟩
  · intro r hm hc
    rw [match_branches scorer (Except.ok r) nv an hi lo hne, if_neg hbhi, if_neg hb2]
    refine ⟨?_, rfl, ?_⟩
    · show (llm_name_match_fallback nv an (get_best_fuzzy_match scorer nv an).1
        (get_best_fuzzy_match scorer nv an).2.1 (get_best_fuzzy_match scorer nv an).2.2.1
        (Except.ok r)).matched = false
      rw [fallback_ok_matched, hm]
      rfl
    · show (llm_name_match_fallback nv an (get_best_fuzzy_match scorer nv an).1
        (get_best_fuzzy_match scorer nv an).2.1 (get_best_fuzzy_match scorer nv an).2.2.1
        (Except.ok r)).confidence = "medium"
      rw [fallback_ok_confidence, hc]
      rfl

/-- Witness for `llm_failure_conservative` at a concrete uncertain-band
input whose collaborator raises a timeout. -/
theorem llm_failure_conservative_witness :
    (match_name_against_article scorer50 (Except.error "timeout") ["a"] ["b"] 85 20).matched =
      false ∧
    (match_name_against_article scorer50 (Except.error "timeout") ["a"] ["b"] 85 20).method =
      "llm_error" ∧
    (match_name_against_article scorer50 (Except.error "timeout") ["a"] ["b"] 85 20).confidence =
      "low" := by
  have h := llm_failure_conservative scorer50 ["a"] ["b"] 85 20 (by simp) (by simp)
    (by rw [get_best_scorer50]; norm_num) (by rw [get_best_scorer50]; norm_num)
  exact h.1 "timeout"

/-- Claim C8 counterexample: on the disambiguation path the collaborator's
confidence value is passed through verbatim, so a decision's confidence
can lie outside the {high, medium, low} enum. -/
theorem confidence_passthrough_counterexample :
    (match_name_against_article scorer50
      (Except.ok "MATCH: yes\nCONFIDENCE: banana\nEXPLANATION: x") ["a"] ["b"]
      85 20).confidence = "banana" ∧
    (match_name_against_article scorer50
      (Except.ok "MATCH: yes\nCONFIDENCE: banana\nEXPLANATION: x") ["a"] ["b"]
      85 20).confidence ≠ "high" ∧
    (match_name_against_article scorer50
      (Except.ok "MATCH: yes\nCONFIDENCE: banana\nEXPLANATION: x") ["a"] ["b"]
      85 20).confidence ≠ "medium" ∧
    (match_name_against_article scorer50
      (Except.ok "MATCH: yes\nCONFIDENCE: banana\nEXPLANATION: x") ["a"] ["b"]
      85 20).confidence ≠ "low" := by
  have hne : ¬((["a"] : List String) = [] ∨ (["b"] : List String) = []) := by simp
  rw [match_branches scorer50 (Except.ok "MATCH: yes\nCONFIDENCE: banana\nEXPLANATION: x")
    ["a"] ["b"] 85 20 hne, get_best_scorer50, if_neg (by norm_num), if_neg (by norm_num)]
  exact ⟨rfl, by decide, by decide, by decide⟩

/-- Claim C8 (amended): every decision whose method is not
"llm_disambiguation" has confidence "high" or "low"; on the successful
disambiguation path the collaborator's confidence is passed through
lower-cased and defaults to "medium" exactly when no confidence line is
present. -/
theorem confidence_enum_amended (scorer : String → String → FuzzyScores)
    (llm_response : Except String String) (nv an : List String) (hi lo : ℚ) :
    ((match_name_against_article scorer llm_response nv an hi lo).method ≠
        "llm_disambiguation" →
      (match_name_against_article scorer llm_response nv an hi lo).confidence = "high" ∨
      (match_name_against_article scorer llm_response nv an hi lo).confidence = "low") ∧
    (∀ r : String, llm_response = Except.ok r →
      (pySplitChar '\n' (pyStrip r)).find? (fun line =>
        pyStartsWith "confidence:" (pyLower line)) = none →
      (match_name_against_article scorer llm_response nv an hi lo).method =
        "llm_disambiguation" →
      (match_name_against_article scorer llm_response nv an hi lo).confidence = "medium") := by
  by_cases hne : nv = [] ∨ an = []
  · have key : match_name_against_article scorer llm_response nv an hi lo =
        { matched := false
          method := "no_data"
          matched_name := none
          matched_variant := none
          score := some 0
          explanation := "No name variants or article names to compare"
          confidence := "high" } := by
      unfold match_name_against_article
      rw [if_pos hne]
    rw [key]
    exact ⟨fun _ => Or.inl rfl, fun r hr hc hmeth => absurd hmeth (by decide)⟩
  · have key := match_branches scorer llm_response nv an hi lo hne
    by_cases hhi : hi ≤ (get_best_fuzzy_match scorer nv an).1
    · rw [key, if_pos hhi]
      exact ⟨fun _ => Or.inl rfl, fun r hr hc hmeth => absurd hmeth (by simp)⟩
    · by_cases hb : (get_best_fuzzy_match scorer nv an).1 < lo
      · rw [key, if_neg hhi, if_pos hb]
        exact ⟨fun _ => Or.inl rfl, fun r hr hc hmeth => absurd hmeth (by simp)⟩
      · rw [key, if_neg hhi, if_neg hb]
        cases llm_response with
        | error e =>
          exact ⟨fun _ => Or.inr rfl, fun r hr => Except.noConfusion hr⟩
        | ok r0 =>
          refine ⟨fun hmeth => (hmeth rfl).elim, ?_⟩
          intro r hr hc _
          injection hr with hr0
          subst hr0
          show (llm_name_match_fallback nv an (get_best_fuzzy_match scorer nv an).1
            (get_best_fuzzy_match scorer nv an).2.1 (get_best_fuzzy_match scorer nv an).2.2.1
            (Except.ok r0)).confidence = "medium"
          rw [fallback_ok_confidence, hc]
          rfl

/-- Witness for `confidence_enum_amended`: a response with no confidence
line yields the "medium" default on the disambiguation path. -/
theorem confidence_enum_amended_witness :
    (match_name_against_article scorer50 (Except.ok "hello") ["a"] ["b"] 85 20).confidence =
      "medium" := by
  have h := confidence_enum_amended scorer50 (Except.ok "hello") ["a"] ["b"] 85 20
  refine h.2 "hello" rfl (by decide) ?_
  have hne : ¬((["a"] : List String) = [] ∨ (["b"] : List String) = []) := by simp
  rw [match_branches scorer50 (Except.ok "hello") ["a"] ["b"] 85 20 hne, get_best_scorer50,
    if_neg (by norm_num), if_neg (by norm_num)]
  rfl

/-- Claim C6: the fused score equals the fixed weighted combination
0.4*token_set_ratio + 0.3*token_sort_ratio + 0.2*ratio +
0.1*partial_ratio of the four metric scores, and it lies in [0, 100]
whenever each metric score does. -/
theorem fused_score_formula (fs : FuzzyScores)
    (h1 : 0 ≤ fs.ratioVal ∧ fs.ratioVal ≤ 100)
    (h2 : 0 ≤ fs.pRatioVal ∧ fs.pRatioVal ≤ 100)
    (h3 : 0 ≤ fs.tSortRatioVal ∧ fs.tSortRatioVal ≤ 100)
    (h4 : 0 ≤ fs.tSetRatioVal ∧ fs.tSetRatioVal ≤ 100) :
    combined_score fs =
      0.4 * fs.tSetRatioVal + 0.3 * fs.tSortRatioVal + 0.2 * fs.ratioVal +
        0.1 * fs.pRatioVal ∧
    0 ≤ combined_score fs ∧ combined_score fs ≤ 100 := by
  unfold combined_score
  refine ⟨by ring, ?_, ?_⟩
  · have := h1.1
    have := h2.1
    have := h3.1
    have := h4.1
    nlinarith
  · have := h1.2
    have := h2.2
    have := h3.2
    have := h4.2
    nlinarith

/-- Witness for `fused_score_formula` at the all-50 score vector. -/
theorem fused_score_formula_witness :
    combined_score ⟨50, 50, 50, 50⟩ =
      0.4 * 50 + 0.3 * 50 + 0.2 * 50 + 0.1 * 50 ∧
    0 ≤ combined_score ⟨50, 50, 50, 50⟩ ∧ combined_score ⟨50, 50, 50, 50⟩ ≤ 100 := by
  have h := fused_score_formula ⟨50, 50, 50, 50⟩ (by norm_num) (by norm_num) (by norm_num)
    (by norm_num)
  exact h

/-- Claim C5: when the input is empty or whitespace-only, or neither the
parser nor the whitespace-tokenization fallback determines both a
non-empty first and a non-empty last token, `generate_name_variants`
returns the empty set; being a total function, it raises no error. -/
theorem generate_empty_on_undetermined (parse : String → String × String × String)
    (nicknames_for : String → List String) (full_name : String)
    (h : full_name = "" ∨ pyStrip full_name = "" ∨
      (decompose parse full_name).1 = "" ∨ (decompose parse full_name).2.2 = "") :
    generate_name_variants parse nicknames_for full_name = ∅ := by
  unfold generate_name_variants
  by_cases h0 : full_name = "" ∨ pyStrip full_name = ""
  · rw [if_pos h0]
  · rw [if_neg h0]
    rcases h with h | h | h | h
    · exact absurd (Or.inl h) h0
    · exact absurd (Or.inr h) h0
    · rw [if_pos (Or.inl h)]
    · rw [if_pos (Or.inr h)]

/-- Witness for `generate_empty_on_undetermined`: a whitespace-only name
and a single-token name both yield the empty variant set. -/
theorem generate_empty_on_undetermined_witness :
    generate_name_variants parse0 nicks0 "   " = ∅ ∧
    generate_name_variants parse0 nicks0 "Madonna" = ∅ :=
  ⟨generate_empty_on_undetermined parse0 nicks0 "   " (Or.inr (Or.inl (by decide))),
   generate_empty_on_undetermined parse0 nicks0 "Madonna"
     (Or.inr (Or.inr (Or.inl (by decide))))⟩

/-- Claim C4 counterexample: for the title-only input "Mr. Dr." with a
parser that finds neither a first nor a last name (as `nameparser` does
for title-only strings), the whitespace fallback decomposition yields the
non-empty tokens first="Mr." and last="Dr.", yet the generated set does
not contain the lower-cased "mr. dr.": the fallback assigns the raw
tokens without lower-casing, so only "Mr. Dr." appears. -/
theorem fallback_not_lowercased_counterexample :
    (decompose parse0 "Mr. Dr.").1 = "Mr." ∧
    (decompose parse0 "Mr. Dr.").2.2 = "Dr." ∧
    "mr. dr." ∉ generate_name_variants parse0 nicks0 "Mr. Dr." ∧
    "Mr. Dr." ∈ generate_name_variants parse0 nicks0 "Mr. Dr." := by
  exact ⟨by decide, by decide, by decide, by decide⟩

/-- Claim C4 (amended): whenever the decomposition (parser plus
whitespace fallback) yields non-empty first and last tokens and the
"first last" string is non-blank, `generate_name_variants` returns a
non-empty set containing the whitespace-normalized "first last" built
from those tokens; the string is lower-cased when the tokens come from
the parser, while the fallback path uses the raw tokens without
lower-casing. -/
theorem generate_contains_first_last (parse : String → String × String × String)
    (nicknames_for : String → List String) (full_name : String)
    (h0 : ¬(full_name = "" ∨ pyStrip full_name = ""))
    (hf : (decompose parse full_name).1 ≠ "")
    (hl : (decompose parse full_name).2.2 ≠ "")
    (hv : pyStrip ((decompose parse full_name).1 ++ " " ++
      (decompose parse full_name).2.2) ≠ "") :
    collapse_ws (pyStrip ((decompose parse full_name).1 ++ " " ++
        (decompose parse full_name).2.2)) ∈
      generate_name_variants parse nicknames_for full_name ∧
    generate_name_variants parse nicknames_for full_name ≠ ∅ := by
  have hv0 : (decompose parse full_name).1 ++ " " ++ (decompose parse full_name).2.2 ≠ "" := by
    intro hcon
    rw [hcon] at hv
    exact hv rfl
  unfold generate_name_variants
  rw [if_neg h0, if_neg (by simp [hf, hl])]
  unfold clean_fold
  have hmem : (decompose parse full_name).1 ++ " " ++ (decompose parse full_name).2.2 ∈
      variants_list (decompose parse full_name).1 (decompose parse full_name).2.1
        (decompose parse full_name).2.2 (nicknames_for (decompose parse full_name).1) := by
    unfold variants_list
    exact List.mem_append_left _ (List.mem_cons_self _ _)
  have h2 := mem_foldl_clean_step_of_mem _ ∅ _ hmem hv0 hv
  exact ⟨h2.1, Finset.ne_empty_of_mem h2.1⟩

/-- Witness for `generate_contains_first_last` at a parser that resolves
"John Smith" into first and last name. -/
theorem generate_contains_first_last_witness :
    collapse_ws (pyStrip ((decompose parse2 "John Smith").1 ++ " " ++
        (decompose parse2 "John Smith").2.2)) ∈
      generate_name_variants parse2 nicks0 "John Smith" ∧
    generate_name_variants parse2 nicks0 "John Smith" ≠ ∅ :=
  generate_contains_first_last parse2 nicks0 "John Smith" (by decide) (by decide) (by decide)
    (by decide)

/-- Claim C7 counterexample: for a decomposition with a punctuation-only
middle token (input "a . b" with a parser that finds nothing, so the
fallback produces first="a", middle=".", last="b"), the final set
contains the entry " b" — the punctuation-stripped duplicate of the
cleaned variant ". b" — which is not trimmed, and the entry "a  b" —
the stripped duplicate of "a . b" — whose inner whitespace run is not
collapsed, contradicting the claim that every entry is trimmed and
whitespace-collapsed. -/
theorem stripped_duplicate_untrimmed_counterexample :
    " b" ∈ generate_name_variants parse1 nicks0 "a . b" ∧
    pyStrip " b" ≠ " b" ∧
    "a  b" ∈ generate_name_variants parse1 nicks0 "a . b" ∧
    collapse_ws "a  b" ≠ "a  b" := by
  exact ⟨by decide, by decide, by decide, by decide⟩

/-- Claim C7 (amended): every surviving generated variant contributes
both its cleaned (trimmed, whitespace-collapsed) form and a
punctuation-stripped duplicate of that cleaned form to the final set, and
every entry of the final set is one of these two forms; the
punctuation-stripped duplicates are not re-normalized, so they may
contain residual or leading whitespace. -/
theorem variant_set_entries_characterized (parse : String → String × String × String)
    (nicknames_for : String → List String) (full_name : String) (x : String)
    (hx : x ∈ generate_name_variants parse nicknames_for full_name) :
    ∃ v, v ≠ "" ∧ pyStrip v ≠ "" ∧
      (x = collapse_ws (pyStrip v) ∨ x = strip_punct (collapse_ws (pyStrip v))) ∧
      collapse_ws (pyStrip v) ∈ generate_name_variants parse nicknames_for full_name ∧
      strip_punct (collapse_ws (pyStrip v)) ∈
        generate_name_variants parse nicknames_for full_name := by
  unfold generate_name_variants at hx ⊢
  by_cases h0 : full_name = "" ∨ pyStrip full_name = ""
  · rw [if_pos h0] at hx
    exact absurd hx (Finset.not_mem_empty x)
  · rw [if_neg h0] at hx ⊢
    by_cases h1 : (decompose parse full_name).1 = "" ∨ (decompose parse full_name).2.2 = ""
    · rw [if_pos h1] at hx
      exact absurd hx (Finset.not_mem_empty x)
    · rw [if_neg h1] at hx ⊢
      unfold clean_fold at hx ⊢
      rcases (mem_foldl_clean_step_iff _ _ _).mp hx with hmem | ⟨v, hvl, hv1, hv2, hx2⟩
      · exact absurd hmem (Finset.not_mem_empty x)
      · exact ⟨v, hv1, hv2, hx2, (mem_foldl_clean_step_of_mem _ _ _ hvl hv1 hv2).1,
          (mem_foldl_clean_step_of_mem _ _ _ hvl hv1 hv2).2⟩

/-- Witness for `variant_set_entries_characterized` at the entry "a b" of
the set generated for "a . b". -/
theorem variant_set_entries_characterized_witness :
    ∃ v, v ≠ "" ∧ pyStrip v ≠ "" ∧
      ("a b" = collapse_ws (pyStrip v) ∨ "a b" = strip_punct (collapse_ws (pyStrip v))) ∧
      collapse_ws (pyStrip v) ∈ generate_name_variants parse1 nicks0 "a . b" ∧
      strip_punct (collapse_ws (pyStrip v)) ∈ generate_name_variants parse1 nicks0 "a . b" :=
  variant_set_entries_characterized parse1 nicks0 "a . b" "a b" (by decide)
